import Mathlib

/-!
Verification of the Zara product scraper's extraction/normalization pipeline.

The development shallowly embeds the JavaScript of the repository:
`src/src/main.js` (namespace `Main`) and the first script variant in
`src/unnamed/part_000` (namespace `Part0`).  JavaScript values are modelled
by the inductive `JVal` (numbers as rationals, with a separate `nan`
constructor); duck-typed property access, truthiness, `||`-chains and
`String(...)` coercion are modelled by total functions on `JVal`.
Operations that can throw a `TypeError` in JavaScript (calling a string
method on a truthy non-string) are modelled in the `Except Unit` monad.
-/

namespace ZaraScraper

/-- Model of a JavaScript runtime value.  Numbers are rationals plus a
separate `nan` marker; objects are association lists. -/
inductive JVal where
  | undefined
  | null
  | nan
  | bool (b : Bool)
  | num (q : ℚ)
  | str (s : String)
  | arr (elems : List JVal)
  | obj (fields : List (String × JVal))

/-- JavaScript truthiness. -/
def jTruthy : JVal → Bool
  | .undefined => false
  | .null => false
  | .nan => false
  | .bool b => b
  | .num q => decide (q ≠ 0)
  | .str s => decide (s ≠ "")
  | .arr _ => true
  | .obj _ => true

/-- The test `typeof v === 'object'` restricted to truthy values:
arrays and plain objects (null is excluded by the truthiness guards that
always accompany this test in the source). -/
def isObjType : JVal → Bool
  | .arr _ => true
  | .obj _ => true
  | _ => false

/-- The test `typeof v === 'string'`. -/
def isStrType : JVal → Bool
  | .str _ => true
  | _ => false

/-- Property access `v[k]`.  On objects it is association-list lookup,
`length` works on arrays and strings as in JavaScript, anything else
yields `undefined`. -/
def getF : JVal → String → JVal
  | .obj fields, k => ((fields.lookup k).getD .undefined)
  | .arr l, k => if k = "length" then .num l.length else .undefined
  | .str s, k => if k = "length" then .num s.length else .undefined
  | _, _ => .undefined

/-- Index access `v[i]`.  Arrays index into their elements, strings yield
one-character strings, anything else yields `undefined`. -/
def getIdx : JVal → Nat → JVal
  | .arr l, i => l.getD i .undefined
  | .str s, i => if i < s.data.length then .str (String.mk [s.data.getD i ' ']) else .undefined
  | _, _ => .undefined

/-- Optional chaining `v?.k`: `undefined` when `v` is nullish, plain
property access otherwise. -/
def optF (v : JVal) (k : String) : JVal :=
  match v with
  | .undefined => .undefined
  | .null => .undefined
  | _ => getF v k

/-- Optional chaining `v?.[i]`. -/
def optIdx (v : JVal) (i : Nat) : JVal :=
  match v with
  | .undefined => .undefined
  | .null => .undefined
  | _ => getIdx v i

/-- JavaScript `a || b`: the first operand when truthy, otherwise the second. -/
def jor (a b : JVal) : JVal :=
  if jTruthy a then a else b

/-- String coercion of values that are not arrays (helper of `jToString`);
inside an array join, `null`/`undefined` render as the empty string. -/
def jToStringElem : JVal → String
  | .undefined => ""
  | .null => ""
  | .nan => "NaN"
  | .bool b => if b then "true" else "false"
  | .num q =>
      if q.den = 1 then
        (if q.num < 0 then "-" ++ Nat.repr q.num.natAbs else Nat.repr q.num.natAbs)
      else
        Nat.repr q.num.natAbs ++ "/" ++ Nat.repr q.den
  | .str s => s
  | .arr _ => ""
  | .obj _ => "[object Object]"

/-- JavaScript `String(v)` coercion.  Integral numbers render as decimal
digit strings; non-integral rationals are rendered `num/den` (a modelling
choice: no claim exercises float formatting).  Arrays join their elements
with a comma, one level deep. -/
def jToString : JVal → String
  | .undefined => "undefined"
  | .null => "null"
  | .arr l => String.intercalate "," (l.map jToStringElem)
  | v => jToStringElem v

/-- List-level test that `p` is an initial segment of `s`
(the model of JavaScript `String.prototype.startsWith`). -/
def listIsPre : List Char → List Char → Bool
  | [], _ => true
  | _ :: _, [] => false
  | a :: as, b :: bs => a == b && listIsPre as bs

/-- JavaScript `s.startsWith(p)`. -/
def jsStartsWith (s p : String) : Bool :=
  listIsPre p.data s.data

/-- JavaScript `s.split('?')[0]`: the prefix of `s` before the first `?`. -/
def stripQuery (s : String) : String :=
  String.mk (s.data.takeWhile (fun c => c != '?'))

/-- A URL is absolute when it carries an explicit http(s) scheme. -/
def isAbsoluteUrl (s : String) : Bool :=
  jsStartsWith s "http://" || jsStartsWith s "https://"

/-- Whether a string still carries a query string. -/
def hasQuery (s : String) : Bool :=
  s.data.any (fun c => c == '?')

/-- The regex test `/^\d+$/.test(s)`: nonempty and all decimal digits. -/
def strAllDigits (s : String) : Bool :=
  !s.data.isEmpty && s.data.all Char.isDigit

/-- JavaScript `s.replace(regex, '')` from part_000, where the regex is
dash, capital I, then digits anchored at the end of the string: removes one
trailing `-I<digits>` suffix (the trailing maximal digit run immediately
preceded by `-I`), leaving the string unchanged when no such suffix exists. -/
def stripVariantSuffix (s : String) : String :=
  match s.data.reverse.dropWhile Char.isDigit, s.data.reverse.takeWhile Char.isDigit with
  | 'I' :: '-' :: rest, _ :: _ => String.mk rest.reverse
  | _, _ => s

/-- JavaScript `v?.includes(sub)` on a possibly-missing string: `undefined`
when nullish, a boolean substring test on strings, and a thrown `TypeError`
on any other truthy value. -/
def jIncludes (v : JVal) (sub : String) : Except Unit JVal :=
  match v with
  | .undefined => .ok .undefined
  | .null => .ok .undefined
  | .str s => .ok (.bool (decide (sub.data <:+: s.data)))
  | _ => .error ()

/-- Digit run used by the string-price cleanup: value of a digit list. -/
def digitsToNat (l : List Char) : Nat :=
  l.foldl (fun a c => a * 10 + (c.toNat - 48)) 0

/-- The regex match `s.match(/[\d.,]+/)`: the first maximal run of digits,
dots and commas, or none. -/
def firstNumRun (s : String) : Option String :=
  let rest := s.data.dropWhile (fun c => !(c.isDigit || c == '.' || c == ','))
  if rest.isEmpty then none
  else some (String.mk (rest.takeWhile (fun c => c.isDigit || c == '.' || c == ',')))

/-- JavaScript `s.replace(/,/g, '')`. -/
def removeCommas (s : String) : String :=
  String.mk (s.data.filter (fun c => c != ','))

/-- JavaScript `parseFloat` restricted to its call site: the input consists
only of digits and dots, so we parse `digits[.digits]` and produce `NaN`
when no digit is found. -/
def parseFloatJ (s : String) : JVal :=
  let intPart := s.data.takeWhile Char.isDigit
  let rest := s.data.drop intPart.length
  let fracPart := match rest with
    | '.' :: r => r.takeWhile Char.isDigit
    | _ => []
  if intPart.isEmpty && fracPart.isEmpty then .nan
  else .num ((digitsToNat intPart : ℚ) + (digitsToNat fracPart : ℚ) / ((10 : ℚ) ^ fracPart.length))

/-- Source function `normalizeImageUrl` (identical in both variants):
falsy input yields null; protocol-relative URLs get an `https:` scheme;
site-root-relative URLs are absolutized against the static-asset host; the
query string is dropped.  Calling it on a truthy non-string throws. -/
def normalizeImageUrl (url : JVal) : Except Unit (Option String) :=
  if ¬ jTruthy url then .ok none
  else
    match url with
    | .str s =>
        let cleanUrl := if jsStartsWith s "//" then "https:" ++ s else s
        let cleanUrl := if jsStartsWith cleanUrl "/" then "https://static.zara.net" ++ cleanUrl else cleanUrl
        .ok (some (stripQuery cleanUrl))
    | _ => .error ()

/-- Sequential `Array.prototype.map` under a callback that may throw:
the first thrown exception aborts the whole traversal, as in JavaScript. -/
def mapEx (f : α → Except Unit β) : List α → Except Unit (List β)
  | [] => .ok []
  | x :: xs => do
      let y ← f x
      let ys ← mapEx f xs
      pure (y :: ys)

/-- Sequential `Array.prototype.find` under a predicate that may throw. -/
def findE (p : JVal → Except Unit Bool) : List JVal → Except Unit (Option JVal)
  | [] => .ok none
  | x :: xs => do
      if (← p x) then pure (some x) else findE p xs

/-- The comparison `v > k` as it appears in `v.length > 0` checks:
false unless `v` is a non-NaN number (the modelled data never puts
numeric strings in length position). -/
def jGtNum (v : JVal) (k : ℚ) : Bool :=
  match v with
  | .num q => decide (k < q)
  | _ => false

namespace Main

/- Embedding of src/src/main.js (the helper functions of lines 329-475 and
the request-handler fragments of lines 145-239).  The per-field extraction
steps of `normalizeProducts` (lines 350-475) are factored into one
definition per source statement group; line numbers refer to main.js. -/

/-- Output record shape of main.js `normalizeProducts` (lines 461-473). -/
structure MainRecord where
  product_id : String
  name : JVal
  price : JVal
  currency : JVal
  image_url : Option String
  product_url : JVal
  availability : JVal
  category : JVal
  subcategory : JVal
  colors : JVal

/-- Lines 330-347: `isProductArray`, the product-array predicate.  The
dead `typeof firstItem === 'string'` disjunct of line 343 is kept (the
first item is already known to be an object at that point). -/
def isProductArray (v : JVal) : Bool :=
  match v with
  | .arr (firstItem :: _) =>
      if ¬ jTruthy firstItem || ¬ isObjType firstItem then false
      else if jTruthy (getF firstItem "elements") || jTruthy (getF firstItem "commercialComponents") then false
      else
        let hasProductProps := jTruthy (jor (getF firstItem "id") (jor (getF firstItem "productId")
          (jor (getF firstItem "name") (getF firstItem "detail"))))
        let isMediaFormat := isStrType firstItem ||
          (jTruthy (getF firstItem "id") &&
            (match getF firstItem "id" with | .num q => decide (q < 100) | _ => false) &&
            ¬ jTruthy (getF firstItem "name"))
        hasProductProps && !isMediaFormat
  | _ => false

/-- Line 358: `const product = item.detail || item.item || item.product || item`. -/
def unwrapProduct (item : JVal) : JVal :=
  jor (getF item "detail") (jor (getF item "item") (jor (getF item "product") item))

/-- Lines 361-365: the product-id fallback chain, coerced with `String(...)`. -/
def extractId (product : JVal) : String :=
  jToString (jor (getF product "id") (jor (getF product "productId")
    (jor (optF (getF product "seo") "keyword") (jor (optF (getF product "seo") "seoProductId")
      (jor (optF (optIdx (getF product "commercialComponents") 0) "id") (.str ""))))))

/-- Line 369: the id rejection test — empty, or a short all-digit id, or
longer than 20 characters. -/
def idRejected (productId : String) : Bool :=
  productId == "" || (decide (productId.length < 4) && strAllDigits productId) ||
    decide (20 < productId.length)

/-- Lines 374-376: the name fallback chain. -/
def extractName (product : JVal) : JVal :=
  jor (getF product "name") (jor (getF product "title")
    (jor (optF (getF product "seo") "seoProductId") (jor (optF (getF product "seo") "keyword")
      (jor (optF (getF product "detail") "displayName") (.str "")))))

/-- Lines 382-395: raw price extraction with its fallbacks. -/
def extractPriceRaw (product : JVal) : JVal :=
  if jTruthy (getF product "price") then
    (if isObjType (getF product "price") then
      jor (getF (getF product "price") "value")
        (jor (getF (getF product "price") "amount") (getF (getF product "price") "formattedPrice"))
    else getF product "price")
  else if jTruthy (getF product "displayPrice") then getF product "displayPrice"
  else if jTruthy (getF product "formattedPrice") then getF product "formattedPrice"
  else if jTruthy (optF (getF product "detail") "price") then optF (getF product "detail") "price"
  else .null

/-- Lines 397-400: `if (typeof price === 'number' && price > 1000 &&
Number.isInteger(price)) price = price / 100`. -/
def correctPrice (price : JVal) : JVal :=
  match price with
  | .num q => if 1000 < q ∧ q.den = 1 then .num (q / 100) else .num q
  | v => v

/-- Lines 401-405: string price cleanup via the digit/dot/comma regex and
`parseFloat` after removing commas. -/
def cleanStringPrice (price : JVal) : JVal :=
  match price with
  | .str s =>
      (match firstNumRun s with
        | some run => parseFloatJ (removeCommas run)
        | none => .str s)
  | v => v

/-- Lines 408-409: currency fallback chain with the `'GBP'` default. -/
def extractCurrency (product : JVal) : JVal :=
  jor (getF product "currency") (jor (getF product "currencyIso")
    (jor (optF (getF product "detail") "currency") (.str "GBP")))

/-- Lines 417-419: the `xmedia.find` callback — a truthy `url` whose
`mediaType` does not mention VIDEO or MPEG.  `includes` on a truthy
non-string `mediaType` throws. -/
def isVideoFree (m : JVal) : Except Unit Bool := do
  if ¬ jTruthy (getF m "url") then pure false
  else do
    let a ← jIncludes (getF m "mediaType") "VIDEO"
    if jTruthy a then pure false
    else do
      let b ← jIncludes (getF m "mediaType") "MPEG"
      pure (!(jTruthy b))

/-- Lines 412-427: image extraction before the colors fallback. -/
def extractImageBase (product : JVal) : Except Unit JVal :=
  if jTruthy (getF product "image") then
    match getF product "image" with
    | .str s => .ok (.str s)
    | img => .ok (getF img "url")
  else
    match getF product "xmedia" with
    | .arr (m0 :: ms) => do
        let realImage ← findE isVideoFree (m0 :: ms)
        (match realImage with
          | some m => pure (jor (getF m "url") (getF m "path"))
          | none => pure .null)
    | _ =>
      .ok (match getF product "images" with
        | .arr (i0 :: _) => i0
        | _ =>
          let el := optIdx (optF (getF product "detail") "xmedia") 0
          if jTruthy el then jor (getF el "url") (getF el "path")
          else .null)

/-- Lines 430-435: the color-variant media fallback, taken only when no
image was found yet. -/
def applyColorsFallback (product : JVal) (imageUrl : JVal) : JVal :=
  if ¬ jTruthy imageUrl ∧ jTruthy (getF product "colors") ∧
      jGtNum (getF (getF product "colors") "length") 0 then
    let c := getIdx (getF product "colors") 0
    if jTruthy (getF c "xmedia") ∧ jGtNum (getF (getF c "xmedia") "length") 0 then
      jor (getF (getIdx (getF c "xmedia") 0) "url") (getF (getIdx (getF c "xmedia") 0) "path")
    else imageUrl
  else imageUrl

/-- Lines 438-443: product URL fallback chain (seo keyword, then the
generic `/product/{id}.html`). -/
def extractProductUrl (product : JVal) (productId : String) : JVal :=
  let productUrl := jor (getF product "url") (jor (getF product "detailUrl") (optF (getF product "detail") "url"))
  if ¬ jTruthy productUrl ∧ jTruthy (optF (getF product "seo") "keyword") then
    .str ("/" ++ jToString (optF (getF product "seo") "keyword") ++ ".html")
  else if ¬ jTruthy productUrl ∧ productId ≠ "" then
    .str ("/product/" ++ productId ++ ".html")
  else productUrl

/-- Lines 467-468: prefixing a relative product URL with the canonical
host; calling `startsWith` on a truthy non-string throws. -/
def finalizeProductUrl (productUrl : JVal) : Except Unit JVal :=
  if ¬ jTruthy productUrl then .ok productUrl
  else
    match productUrl with
    | .str s => .ok (if jsStartsWith s "http" then .str s else .str ("https://www.zara.com" ++ s))
    | _ => .error ()

/-- Lines 446-449: availability chain.  Note the trailing `|| null` of the
source is unreachable, because the `inStock` ternary always yields a
nonempty string. -/
def extractAvailability (product : JVal) : JVal :=
  jor (getF product "availability")
    (jor (optF (getF product "detail") "availability")
      (jor (if jTruthy (getF product "inStock") then .str "in_stock" else .str "out_of_stock") .null))

/-- Lines 452-453: category chain. -/
def extractCategory (product : JVal) : JVal :=
  jor (getF product "category") (jor (getF product "section")
    (jor (optF (getF product "detail") "category") .null))

/-- Lines 454-455: subcategory chain. -/
def extractSubcategory (product : JVal) : JVal :=
  jor (getF product "subcategory") (jor (getF product "subSection")
    (jor (optF (getF product "detail") "subcategory") .null))

/-- Lines 458-459: colors chain. -/
def extractColors (product : JVal) : JVal :=
  jor (getF product "colors") (jor (getF product "availableColors")
    (jor (optF (getF product "detail") "colors") .null))

/-- Lines 353-473: the per-candidate body of main.js `normalizeProducts`.
A `.ok none` is the JavaScript `return null`; `.error ()` is an uncaught
exception (main.js has no try/catch around the candidate body). -/
def normalizeOne (item : JVal) : Except Unit (Option MainRecord) :=
  if ¬ jTruthy item || ¬ isObjType item then .ok none
  else
    let product := unwrapProduct item
    let productId := extractId product
    if idRejected productId then .ok none
    else
      let name := extractName product
      if ¬ jTruthy name then .ok none
      else do
        let imageUrlBase ← extractImageBase product
        let imageUrl := applyColorsFallback product imageUrlBase
        let image_url ← normalizeImageUrl imageUrl
        let product_url ← finalizeProductUrl (extractProductUrl product productId)
        pure (some
          { product_id := productId
            name := name
            price := cleanStringPrice (correctPrice (extractPriceRaw product))
            currency := extractCurrency product
            image_url := image_url
            product_url := product_url
            availability := extractAvailability product
            category := extractCategory product
            subcategory := extractSubcategory product
            colors := extractColors product })

/-- Lines 350-475: main.js `normalizeProducts` — map the candidate body
over the array (an exception aborts the whole batch) and keep exactly the
non-null results with a truthy `product_id` and `name`. -/
def normalizeProducts (products : JVal) : Except Unit (List MainRecord) :=
  match products with
  | .arr items =>
      (match mapEx normalizeOne items with
        | .ok mapped =>
            .ok ((mapped.filterMap id).filter (fun p => !(p.product_id == "") && jTruthy p.name))
        | .error e => .error e)
  | _ => .ok []

/-- Lines 52-53 and 229-239: the cross-call dedup/quota state. -/
structure TrackState where
  seen : List String
  saved : Nat

/-- Lines 229-239: the save loop of the request handler — stop once the
quota is reached, skip records with a falsy `product_id`, skip ids already
seen, otherwise accept and update the state. -/
def processBatch (target : Nat) : List MainRecord → TrackState → List MainRecord × TrackState
  | [], st => ([], st)
  | item :: rest, st =>
      if target ≤ st.saved then ([], st)
      else if item.product_id = "" then processBatch target rest st
      else if item.product_id ∈ st.seen then processBatch target rest st
      else
        let r := processBatch target rest ⟨item.product_id :: st.seen, st.saved + 1⟩
        (item :: r.1, r.2)

/-- Feeding several batches (one per page visit) through the tracker,
accumulating the accepted records in order. -/
def runBatches (target : Nat) : List (List MainRecord) → TrackState → List MainRecord × TrackState
  | [], st => ([], st)
  | b :: bs, st =>
      let r := processBatch target b st
      let rs := runBatches target bs r.2
      (r.1 ++ rs.1, rs.2)

/-- Outcome of the source-resolution logic: the extracted products and
whether the internal-API fetch was attempted. -/
structure ResolveOutcome where
  products : List MainRecord
  apiFetched : Bool

/-- Lines 145-226: the source-resolution control flow of the request
handler, abstracted over the page plumbing: `embedded` is the result of
`extractProductsFromData` on the preloaded state (empty when the global is
absent), `api` is the extraction of the internal-API response when a fetch
would be issued, `jsonLd` the normalized structured-markup items.  The API
fetch is attempted only when the embedded extraction is empty and a
category id is known (line 160), and its result replaces (never merges
with) the embedded result (lines 188-195). -/
def resolveProducts (embedded : List MainRecord) (internalCategoryId : Option String)
    (api : List MainRecord) (jsonLd : List MainRecord) : ResolveOutcome :=
  let extracted := embedded
  let apiFetched := extracted.isEmpty && internalCategoryId.isSome
  let extracted := if apiFetched ∧ ¬ api.isEmpty then api else extracted
  let extracted := if extracted.isEmpty then jsonLd else extracted
  ⟨extracted, apiFetched⟩

end Main

namespace Part0

/- Embedding of the first script variant in src/unnamed/part_000
(its `normalizeProducts` helper, lines 249-301).  The whole candidate body
is wrapped in try/catch there, so a thrown exception becomes a `null`
result for that one candidate. -/

/-- Output record shape of part_000 `normalizeProducts` (lines 287-296). -/
structure P0Record where
  product_id : String
  name : JVal
  price : JVal
  currency : JVal
  image_url : Option String
  product_url : JVal
  reference : JVal
  availability : JVal

/-- Lines 253-296: the candidate body before the try/catch is applied.
`.ok none` is `return null`, `.error ()` a thrown exception. -/
def normalizeOneE (item : JVal) : Except Unit (Option P0Record) :=
  let p := jor (getF item "detail") (jor (getF item "item") item)
  let id := stripVariantSuffix (jToString (jor (getF p "id")
    (jor (getF p "productId") (jor (getF p "reference") (.str "")))))
  if id == "" || decide (id.length < 4) then .ok none
  else
    let name := jor (getF p "name") (jor (getF p "displayName") (jor (getF p "title") (.str "")))
    if ¬ jTruthy name then .ok none
    else do
      let price :=
        if jTruthy (getF p "price") then
          (if isObjType (getF p "price") then
            jor (getF (getF p "price") "value") (getF (getF p "price") "amount")
          else getF p "price")
        else if jTruthy (getF p "displayPrice") then getF p "displayPrice"
        else .null
      let imageUrl :=
        if jTruthy (getF p "xmedia") ∧ jTruthy (getIdx (getF p "xmedia") 0) then
          jor (getF (getIdx (getF p "xmedia") 0) "url") (getF (getIdx (getF p "xmedia") 0) "path")
        else if jTruthy (getF p "colors") ∧ jTruthy (getIdx (getF p "colors") 0) ∧
            jTruthy (getF (getIdx (getF p "colors") 0) "xmedia") ∧
            jTruthy (getIdx (getF (getIdx (getF p "colors") 0) "xmedia") 0) then
          jor (getF (getIdx (getF (getIdx (getF p "colors") 0) "xmedia") 0) "url")
            (getF (getIdx (getF (getIdx (getF p "colors") 0) "xmedia") 0) "path")
        else
          (match getF p "image" with
            | .str s => .str s
            | _ => .null)
      let productUrl :=
        if jTruthy (optF (getF p "seo") "keyword") then
          JVal.str ("/" ++ jToString (optF (getF p "seo") "keyword") ++ ".html")
        else .null
      let productUrl :=
        if ¬ jTruthy productUrl ∧ jTruthy (getF p "semanticUrl") then
          JVal.str ("/" ++ jToString (getF p "semanticUrl"))
        else productUrl
      (match normalizeImageUrl imageUrl with
        | .error e => .error e
        | .ok image_url =>
            .ok (some
              { product_id := id
                name := name
                price := price
                currency := jor (getF p "currency") (.str "GBP")
                image_url := image_url
                product_url :=
                  if jTruthy productUrl then JVal.str ("https://www.zara.com" ++ jToString productUrl)
                  else JVal.null
                reference := getF p "reference"
                availability := jor (getF p "availability")
                  (if jTruthy (getF p "inStock") then .str "in_stock" else .str "out_of_stock") }))

/-- Lines 252-299: the candidate body with its try/catch — any exception
becomes a `null` result for that candidate alone. -/
def normalizeOne (item : JVal) : Option P0Record :=
  match normalizeOneE item with
  | .ok r => r
  | .error _ => none

/-- Lines 249-301: part_000 `normalizeProducts` — a non-array yields `[]`;
otherwise map the guarded candidate body and drop the `null` results. -/
def normalizeProducts (v : JVal) : List P0Record :=
  match v with
  | .arr items => items.filterMap normalizeOne
  | _ => []

end Part0

/-! Concrete values used by the theorems below. -/

/-- A candidate carrying only an id and a name, all other fields absent. -/
def minimalCand : JVal := .arr [.obj [("id", .str "12345"), ("name", .str "X")]]

/-- The record main.js emits for `minimalCand`: note the non-null defaults
for currency, product URL and availability. -/
def recMin : Main.MainRecord :=
  { product_id := "12345", name := .str "X", price := .null, currency := .str "GBP"
    image_url := none, product_url := .str "https://www.zara.com/product/12345.html"
    availability := .str "out_of_stock", category := .null, subcategory := .null, colors := .null }

/-- A candidate whose media entry has a numeric `url` value: normalizing it
calls a string method on a number and throws. -/
def badXmedia : JVal :=
  .obj [("id", .str "5554447"), ("name", .str "Bad"), ("xmedia", .arr [.obj [("url", .num 5)]])]

/-- A well-formed candidate. -/
def goodA : JVal := .obj [("id", .str "1234567"), ("name", .str "ShirtA")]

/-- Another well-formed candidate. -/
def goodB : JVal := .obj [("id", .str "7654321"), ("name", .str "ShirtB")]

/-- The record main.js emits for `goodA` alone. -/
def recGA : Main.MainRecord :=
  { product_id := "1234567", name := .str "ShirtA", price := .null, currency := .str "GBP"
    image_url := none, product_url := .str "https://www.zara.com/product/1234567.html"
    availability := .str "out_of_stock", category := .null, subcategory := .null, colors := .null }

/-- The record main.js emits for `goodB` alone. -/
def recGB : Main.MainRecord :=
  { product_id := "7654321", name := .str "ShirtB", price := .null, currency := .str "GBP"
    image_url := none, product_url := .str "https://www.zara.com/product/7654321.html"
    availability := .str "out_of_stock", category := .null, subcategory := .null, colors := .null }

/-- A normalized record as the embedded-state source would produce it. -/
def recE : Main.MainRecord :=
  { product_id := "1111111", name := .str "A", price := .str "10.00", currency := .str "GBP"
    image_url := none, product_url := .null, availability := .null
    category := .null, subcategory := .null, colors := .null }

/-- The same product id as `recE` with a different (API-sourced) price. -/
def recE' : Main.MainRecord :=
  { recE with price := .str "12.00" }

/-- A candidate whose only varying field is a numeric price. -/
def priceCand (n : ℤ) : JVal :=
  .arr [.obj [("id", .str "12345"), ("name", .str "X"), ("price", .num (n : ℚ))]]

/-- A candidate whose id string is 21 characters long. -/
def item21 : JVal := .obj [("id", .str "123456789012345678901"), ("name", .str "X")]

/-- Observation that a candidate body returned `null` without throwing. -/
def isOkNone : Except Unit (Option α) → Bool
  | .ok none => true
  | _ => false

/-! Helper lemmas. -/

theorem jTruthy_jor (a b : JVal) : jTruthy (jor a b) = (jTruthy a || jTruthy b) := by
  unfold jor
  by_cases h : jTruthy a = true
  · simp [h]
  · simp [Bool.not_eq_true] at h
    simp [h]

theorem takeWhile_append_all {p : Char → Bool} :
    ∀ {xs ys : List Char}, (∀ c ∈ xs, p c = true) →
      List.takeWhile p (xs ++ ys) = xs ++ List.takeWhile p ys := by
  intro xs
  induction xs with
  | nil => intro ys _; rfl
  | cons x xs ih =>
      intro ys h
      have hx : p x = true := h x (List.mem_cons_self x xs)
      simp [List.takeWhile, hx, ih (fun c hc => h c (List.mem_cons_of_mem x hc))]

theorem dropWhile_append_all {p : Char → Bool} :
    ∀ {xs ys : List Char}, (∀ c ∈ xs, p c = true) →
      List.dropWhile p (xs ++ ys) = List.dropWhile p ys := by
  intro xs
  induction xs with
  | nil => intro ys _; rfl
  | cons x xs ih =>
      intro ys h
      have hx : p x = true := h x (List.mem_cons_self x xs)
      simp [List.dropWhile, hx, ih (fun c hc => h c (List.mem_cons_of_mem x hc))]

/-- The suffix-stripping behaviour of the part_000 id regex: a trailing
`-I<digits>` block is removed whole. -/
theorem stripVariantSuffix_append (t d : String) (hd : d.data ≠ [])
    (hdig : ∀ c ∈ d.data, c.isDigit = true) :
    stripVariantSuffix (t ++ "-I" ++ d) = t := by
  have hdata : (t ++ "-I" ++ d).data = t.data ++ ['-', 'I'] ++ d.data := by
    rw [String.data_append, String.data_append]
  have hrev : (t ++ "-I" ++ d).data.reverse = d.data.reverse ++ ('I' :: '-' :: t.data.reverse) := by
    rw [hdata]
    simp [List.reverse_append]
  have hdigr : ∀ c ∈ d.data.reverse, c.isDigit = true := by
    intro c hc
    exact hdig c (List.mem_reverse.mp hc)
  have hdrop : (t ++ "-I" ++ d).data.reverse.dropWhile Char.isDigit = 'I' :: '-' :: t.data.reverse := by
    rw [hrev, dropWhile_append_all hdigr]
    rfl
  have htake : (t ++ "-I" ++ d).data.reverse.takeWhile Char.isDigit = d.data.reverse := by
    rw [hrev, takeWhile_append_all hdigr]
    simp [List.takeWhile]
  obtain ⟨e, es, he⟩ : ∃ e es, d.data.reverse = e :: es := by
    cases hrev' : d.data.reverse with
    | nil => exact absurd (by simpa using hrev') hd
    | cons e es => exact ⟨e, es, rfl⟩
  unfold stripVariantSuffix
  rw [hdrop, htake, he]
  simp [String.ext_iff]

theorem hasQuery_stripQuery (s : String) : hasQuery (stripQuery s) = false := by
  unfold hasQuery stripQuery
  rw [List.any_eq_false]
  intro c hc
  have := List.mem_takeWhile_imp hc
  simpa using this

/-! Invariants of the dedup/quota tracker loop. -/

theorem processBatch_sublist (t : Nat) :
    ∀ (b : List Main.MainRecord) (st : Main.TrackState),
      ((Main.processBatch t b st).1).Sublist b := by
  intro b
  induction b with
  | nil => intro st; exact List.Sublist.refl _
  | cons item rest ih =>
      intro st
      unfold Main.processBatch
      by_cases h1 : t ≤ st.saved
      · simp [h1]
      · by_cases h2 : item.product_id = ""
        · simp [h1, h2]
          exact (ih st).cons item
        · by_cases h3 : item.product_id ∈ st.seen
          · simp [h1, h2, h3]
            exact (ih st).cons item
          · simp [h1, h2, h3]
            exact ih _

theorem processBatch_mem (t : Nat) :
    ∀ (b : List Main.MainRecord) (st : Main.TrackState) (r : Main.MainRecord),
      r ∈ (Main.processBatch t b st).1 → r.product_id ∉ st.seen ∧ r.product_id ≠ "" := by
  intro b
  induction b with
  | nil => intro st r hr; simp [Main.processBatch] at hr
  | cons item rest ih =>
      intro st r hr
      unfold Main.processBatch at hr
      by_cases h1 : t ≤ st.saved
      · simp [h1] at hr
      · by_cases h2 : item.product_id = ""
        · simp [h1, h2] at hr
          exact ih st r hr
        · by_cases h3 : item.product_id ∈ st.seen
          · simp [h1, h2, h3] at hr
            exact ih st r hr
          · simp [h1, h2, h3] at hr
            rcases hr with rfl | hr
            · exact ⟨h3, h2⟩
            · have := ih _ r hr
              refine ⟨fun hmem => this.1 (List.mem_cons_of_mem _ hmem), this.2⟩

theorem processBatch_nodup (t : Nat) :
    ∀ (b : List Main.MainRecord) (st : Main.TrackState),
      (((Main.processBatch t b st).1).map (fun r => r.product_id)).Nodup := by
  intro b
  induction b with
  | nil => intro st; simp [Main.processBatch]
  | cons item rest ih =>
      intro st
      unfold Main.processBatch
      by_cases h1 : t ≤ st.saved
      · simp [h1]
      · by_cases h2 : item.product_id = ""
        · simp only [h1, h2]
          simp
          exact ih st
        · by_cases h3 : item.product_id ∈ st.seen
          · simp only [h1, h2, h3]
            simp [h2]
            exact ih st
          · simp only [h1, h2, h3]
            simp [h2, h3]
            refine ⟨?_, ih _⟩
            intro r hr hid
            have := (processBatch_mem t rest _ r hr).1
            exact this (hid ▸ List.mem_cons_self _ _)

theorem processBatch_saved_le (t : Nat) :
    ∀ (b : List Main.MainRecord) (st : Main.TrackState),
      st.saved ≤ t → ((Main.processBatch t b st).2).saved ≤ t := by
  intro b
  induction b with
  | nil => intro st h; exact h
  | cons item rest ih =>
      intro st h
      unfold Main.processBatch
      by_cases h1 : t ≤ st.saved
      · simp [h1]; exact h
      · by_cases h2 : item.product_id = ""
        · simp [h1, h2]; exact ih st h
        · by_cases h3 : item.product_id ∈ st.seen
          · simp [h1, h2, h3]; exact ih st h
          · simp [h1, h2, h3]
            exact ih _ (Nat.succ_le_of_lt (Nat.lt_of_not_le h1))

theorem processBatch_seen (t : Nat) :
    ∀ (b : List Main.MainRecord) (st : Main.TrackState),
      ((Main.processBatch t b st).2).seen =
        (((Main.processBatch t b st).1).map (fun r => r.product_id)).reverse ++ st.seen := by
  intro b
  induction b with
  | nil => intro st; simp [Main.processBatch]
  | cons item rest ih =>
      intro st
      unfold Main.processBatch
      by_cases h1 : t ≤ st.saved
      · simp [h1]
      · by_cases h2 : item.product_id = ""
        · simp [h1, h2]; exact ih st
        · by_cases h3 : item.product_id ∈ st.seen
          · simp [h1, h2, h3]; exact ih st
          · simp only [h1, h2, h3, if_false, if_neg, ite_false]
            simp
            rw [ih ⟨item.product_id :: st.seen, st.saved + 1⟩]

theorem runBatches_mem (t : Nat) :
    ∀ (bs : List (List Main.MainRecord)) (st : Main.TrackState) (r : Main.MainRecord),
      r ∈ (Main.runBatches t bs st).1 → r.product_id ∉ st.seen := by
  intro bs
  induction bs with
  | nil => intro st r hr; simp [Main.runBatches] at hr
  | cons b bs ih =>
      intro st r hr
      unfold Main.runBatches at hr
      simp at hr
      rcases hr with hr | hr
      · exact (processBatch_mem t b st r hr).1
      · intro hmem
        have h2 := ih _ r hr
        rw [processBatch_seen] at h2
        exact h2 (List.mem_append_right _ hmem)

theorem runBatches_nodup (t : Nat) :
    ∀ (bs : List (List Main.MainRecord)) (st : Main.TrackState),
      (((Main.runBatches t bs st).1).map (fun r => r.product_id)).Nodup := by
  intro bs
  induction bs with
  | nil => intro st; simp [Main.runBatches]
  | cons b bs ih =>
      intro st
      unfold Main.runBatches
      simp
      rw [List.nodup_append]
      refine ⟨processBatch_nodup t b st, ih _, ?_⟩
      intro x hx hx'
      rcases List.mem_map.mp hx with ⟨r, hr, hid⟩
      rcases List.mem_map.mp hx' with ⟨r', hr', hid'⟩
      have h2 := runBatches_mem t bs _ r' hr'
      rw [processBatch_seen] at h2
      apply h2
      apply List.mem_append_left
      rw [List.mem_reverse]
      exact List.mem_map.mpr ⟨r, hr, hid'.symm ▸ hid⟩

theorem runBatches_saved_le (t : Nat) :
    ∀ (bs : List (List Main.MainRecord)) (st : Main.TrackState),
      st.saved ≤ t → ((Main.runBatches t bs st).2).saved ≤ t := by
  intro bs
  induction bs with
  | nil => intro st h; exact h
  | cons b bs ih =>
      intro st h
      unfold Main.runBatches
      exact ih _ (processBatch_saved_le t b st h)

/-! Claim theorems. -/

/-- C2: for any sequence of batches fed through the tracker from the fresh
run state, the accepted output never repeats a product id and the saved
count never exceeds the target; per batch, acceptance is a sublist of the
input (input order), accepted records were not in the seen-set and have a
truthy id, and a state already at or past the target accepts nothing. -/
theorem tracker_dedup_quota (target : Nat) (batches : List (List Main.MainRecord)) :
    (((Main.runBatches target batches ⟨[], 0⟩).1.map (fun r => r.product_id)).Nodup) ∧
    ((Main.runBatches target batches ⟨[], 0⟩).2.saved ≤ target) ∧
    (∀ b st, ((Main.processBatch target b st).1).Sublist b) ∧
    (∀ b st r, r ∈ (Main.processBatch target b st).1 →
      r.product_id ∉ st.seen ∧ r.product_id ≠ "") ∧
    (∀ b seen k, Main.processBatch target b ⟨seen, target + k⟩ = ([], ⟨seen, target + k⟩)) := by
  refine ⟨runBatches_nodup target batches _, runBatches_saved_le target batches _ (Nat.zero_le _),
    processBatch_sublist target, processBatch_mem target, ?_⟩
  intro b seen k
  cases b with
  | nil => rfl
  | cons item rest => simp [Main.processBatch, Nat.le_add_right]

/-- C2 witness: the tracker facts instantiated at a concrete batch and a
state already at the target. -/
theorem tracker_dedup_quota_witness :
    (recGA.product_id ∉ (Main.TrackState.mk [] 0).seen ∧ recGA.product_id ≠ "") ∧
    Main.processBatch 2 [recGA] ⟨["x"], 2 + 1⟩ = ([], ⟨["x"], 2 + 1⟩) :=
  ⟨(tracker_dedup_quota 2 [[recGA]]).2.2.2.1 [recGA] ⟨[], 0⟩ recGA
      (by show recGA ∈ [recGA]; exact List.mem_singleton.mpr rfl),
    (tracker_dedup_quota 2 []).2.2.2.2 [recGA] ["x"] 1⟩

/-- C3 counterexample: with a category id known and a non-empty
embedded-state result, main.js does not attempt the internal-API fetch and
its output keeps the embedded-state field values, not the API ones. -/
theorem resolver_force_api_counterexample :
    (Main.resolveProducts [recE] (some "2419833") [recE'] []).apiFetched = false ∧
    (Main.resolveProducts [recE] (some "2419833") [recE'] []).products.map (fun r => r.price) =
      [JVal.str "10.00"] ∧
    recE'.price = JVal.str "12.00" ∧ JVal.str "10.00" ≠ JVal.str "12.00" := by
  refine ⟨rfl, rfl, rfl, ?_⟩
  intro h
  simp at h

/-- C3 amended: the internal-API fetch is attempted only when the
embedded-state extraction is empty and a category id is known, and its
non-empty result replaces (never merges with) the embedded result. -/
theorem resolver_first_nonempty_amended (e api ld : List Main.MainRecord) (c : String) :
    (e ≠ [] → Main.resolveProducts e (some c) api ld = ⟨e, false⟩) ∧
    (e = [] → api ≠ [] → Main.resolveProducts e (some c) api ld = ⟨api, true⟩) := by
  constructor
  · intro he
    cases e with
    | nil => exact absurd rfl he
    | cons x xs => simp [Main.resolveProducts]
  · intro he ha
    subst he
    cases api with
    | nil => exact absurd rfl ha
    | cons x xs => simp [Main.resolveProducts]

/-- C3 amended witness: both resolver facts at concrete inputs. -/
theorem resolver_first_nonempty_amended_witness :
    Main.resolveProducts [recE] (some "2419833") [recE'] [] = ⟨[recE], false⟩ ∧
    Main.resolveProducts [] (some "2419833") [recE'] [] = ⟨[recE'], true⟩ :=
  ⟨(resolver_first_nonempty_amended [recE] [recE'] [] "2419833").1 (by simp),
    (resolver_first_nonempty_amended [] [recE'] [] "2419833").2 rfl (by simp)⟩

/-- C6: every media-format-shaped candidate (a numeric id below 100 and a
null name) is refused by the product-array predicate and mapped to null by
the main.js candidate body. -/
theorem media_format_rejected :
    ∀ n : Nat, n < 100 →
      Main.isProductArray (.arr [.obj [("id", .num (n : ℚ)), ("name", .null)]]) = false ∧
      isOkNone (Main.normalizeOne (.obj [("id", .num (n : ℚ)), ("name", .null)])) = true := by
  decide

/-- C6 witness: the Scenario B candidate with id 7 and null name. -/
theorem media_format_rejected_witness :
    Main.isProductArray (.arr [.obj [("id", .num ((7 : Nat) : ℚ)), ("name", .null)]]) = false ∧
    isOkNone (Main.normalizeOne (.obj [("id", .num ((7 : Nat) : ℚ)), ("name", .null)])) = true :=
  media_format_rejected 7 (by decide)

/-- C8: in main.js the availability of the minimal candidate (no
availability field, no inStock flag) is the string out_of_stock, and the
availability expression is always truthy — its trailing null default is
unreachable, so availability is never null. -/
theorem availability_default_bug :
    (Main.normalizeProducts minimalCand).map (List.map (fun r => r.availability)) =
      .ok [JVal.str "out_of_stock"] ∧
    (∀ product : JVal, jTruthy (Main.extractAvailability product) = true) := by
  refine ⟨rfl, ?_⟩
  intro product
  unfold Main.extractAvailability
  rw [jTruthy_jor, jTruthy_jor, jTruthy_jor]
  simp only [Bool.or_eq_true]
  refine Or.inr (Or.inr (Or.inl ?_))
  split
  · rfl
  · rfl

/-- C9 counterexample: in main.js one candidate with a non-string media
url aborts normalization of the whole batch, although each good candidate
in the batch normalizes fine on its own. -/
theorem batch_abort_counterexample :
    Main.normalizeProducts (.arr [goodA, badXmedia, goodB]) = .error () ∧
    Main.normalizeProducts (.arr [goodA]) = .ok [recGA] ∧
    Main.normalizeProducts (.arr [goodB]) = .ok [recGB] :=
  ⟨rfl, rfl, rfl⟩

/-- C9 amended: the part_000 variant is total per candidate — batches
normalize independently of their surroundings, the throwing candidate
becomes null on its own, and the rest of the batch is still normalized. -/
theorem per_candidate_isolation_amended :
    (∀ xs ys : List JVal, Part0.normalizeProducts (.arr (xs ++ ys)) =
      Part0.normalizeProducts (.arr xs) ++ Part0.normalizeProducts (.arr ys)) ∧
    Part0.normalizeOne badXmedia = none ∧
    (Part0.normalizeProducts (.arr [goodA, badXmedia, goodB])).map (fun r => r.product_id) =
      ["1234567", "7654321"] := by
  refine ⟨?_, rfl, rfl⟩
  intro xs ys
  simp [Part0.normalizeProducts]

/-- C10: any candidate whose extracted product-id string is longer than 20
characters is rejected by the main.js candidate body. -/
theorem long_id_rejected (item : JVal)
    (h : 20 < (Main.extractId (Main.unwrapProduct item)).length) :
    Main.normalizeOne item = .ok none := by
  unfold Main.normalizeOne
  split
  · rfl
  · have hrej : Main.idRejected (Main.extractId (Main.unwrapProduct item)) = true := by
      simp [Main.idRejected, h]
    simp [hrej]

/-- C10 witness: a 21-character id is extracted and the candidate is
rejected. -/
theorem long_id_rejected_witness :
    20 < (Main.extractId (Main.unwrapProduct item21)).length ∧
    Main.normalizeOne item21 = .ok none :=
  ⟨by decide, long_id_rejected item21 (by decide)⟩

/-- C1 counterexample: the integer price 500 is greater than 100 yet
main.js leaves it unchanged — the division threshold of the code is 1000,
not 100. -/
theorem price_unit_claim_counterexample :
    (Main.normalizeProducts (priceCand 500)).map (List.map (fun r => r.price)) =
      .ok [JVal.num ((500 : ℤ) : ℚ)] ∧
    (100 : ℤ) < 500 ∧
    JVal.num ((500 : ℤ) : ℚ) ≠ JVal.num (((500 : ℤ) : ℚ) / 100) := by
  refine ⟨rfl, by norm_num, ?_⟩
  intro h
  injection h with h'
  norm_num at h'

/-- C1 amended: in main.js an integral numeric price is divided by 100
exactly when it is strictly greater than 1000, otherwise kept unchanged;
the part_000 variant never rescales a numeric price. -/
theorem price_unit_amended (n : ℤ) (hn : n ≠ 0) :
    Main.cleanStringPrice (Main.correctPrice (Main.extractPriceRaw (.obj [("price", .num (n : ℚ))]))) =
      (if 1000 < n then JVal.num ((n : ℚ) / 100) else JVal.num (n : ℚ)) ∧
    (Main.normalizeProducts (priceCand 3599)).map (List.map (fun r => r.price)) =
      .ok [JVal.num (((3599 : ℤ) : ℚ) / 100)] ∧
    (Part0.normalizeProducts (priceCand 3599)).map (fun r => r.price) =
      [JVal.num ((3599 : ℤ) : ℚ)] := by
  refine ⟨?_, rfl, rfl⟩
  have htr : jTruthy (JVal.num (n : ℚ)) = true := by
    simp [jTruthy]
    exact_mod_cast hn
  have h1 : Main.extractPriceRaw (.obj [("price", .num (n : ℚ))]) = .num (n : ℚ) := by
    unfold Main.extractPriceRaw
    simp [getF, List.lookup, htr, isObjType]
  rw [h1]
  have hcond : ((1000 : ℚ) < (n : ℚ) ∧ ((n : ℚ)).den = 1) ↔ (1000 < n) := by
    rw [Rat.den_intCast]
    simp only [and_true]
    exact_mod_cast Iff.rfl
  unfold Main.correctPrice
  simp only [hcond]
  by_cases h2 : 1000 < n <;> simp [h2, Main.cleanStringPrice]

/-- C1 amended witness: the amended price facts instantiated at the
integral minor-unit price 3599. -/
theorem price_unit_amended_witness :
    Main.cleanStringPrice (Main.correctPrice
        (Main.extractPriceRaw (.obj [("price", .num ((3599 : ℤ) : ℚ))]))) =
      (if (1000 : ℤ) < 3599 then JVal.num (((3599 : ℤ) : ℚ) / 100)
        else JVal.num ((3599 : ℤ) : ℚ)) ∧
    (Main.normalizeProducts (priceCand 3599)).map (List.map (fun r => r.price)) =
      .ok [JVal.num (((3599 : ℤ) : ℚ) / 100)] ∧
    (Part0.normalizeProducts (priceCand 3599)).map (fun r => r.price) =
      [JVal.num ((3599 : ℤ) : ℚ)] :=
  price_unit_amended 3599 (by decide)

/-- C4 counterexample: for a candidate with only id and name, the absent
currency field does not become null — it defaults to the string GBP. -/
theorem emission_nullable_counterexample :
    (Main.normalizeProducts minimalCand).map (List.map (fun r => r.currency)) =
      .ok [JVal.str "GBP"] ∧
    JVal.str "GBP" ≠ JVal.null := by
  refine ⟨rfl, ?_⟩
  intro h
  exact JVal.noConfusion h

/-- C4 amended: every record main.js emits has a non-empty product id and
a truthy name, and a candidate carrying only id and name is still emitted,
with null price, image, category, subcategory and colors (currency,
product URL and availability fall back to non-null defaults). -/
theorem emission_invariant_amended :
    (∀ v rs, Main.normalizeProducts v = .ok rs →
      ∀ r ∈ rs, r.product_id ≠ "" ∧ jTruthy r.name = true) ∧
    Main.normalizeProducts minimalCand = .ok [recMin] ∧
    recMin.price = JVal.null ∧ recMin.image_url = none ∧ recMin.category = JVal.null ∧
    recMin.subcategory = JVal.null ∧ recMin.colors = JVal.null := by
  refine ⟨?_, rfl, rfl, rfl, rfl, rfl, rfl⟩
  intro v rs hv r hr
  cases v
  case arr items =>
    simp only [Main.normalizeProducts] at hv
    cases hm : mapEx Main.normalizeOne items with
    | error e =>
        rw [hm] at hv
        cases hv
    | ok mapped =>
        rw [hm] at hv
        injection hv with h
        subst h
        have hp := (List.mem_filter.mp hr).2
        rw [Bool.and_eq_true] at hp
        refine ⟨?_, hp.2⟩
        have h1 := hp.1
        rw [Bool.not_eq_true'] at h1
        exact beq_eq_false_iff_ne.mp h1
  all_goals
    simp only [Main.normalizeProducts] at hv
    injection hv with h
    subst h
    cases hr

/-- C4 amended witness: the output-side invariant applied to the record
emitted for the minimal candidate. -/
theorem emission_invariant_amended_witness :
    recMin.product_id ≠ "" ∧ jTruthy recMin.name = true :=
  emission_invariant_amended.1 minimalCand [recMin] rfl recMin
    (by show recMin ∈ [recMin]; exact List.mem_singleton.mpr rfl)

/-- C5 counterexample: main.js emits an id that still ends in the variant
suffix -I2024, although the suffix-stripping rule would remove it. -/
theorem variant_suffix_counterexample :
    (Main.normalizeProducts (.arr [.obj [("id", .str "123456-I2024"), ("name", .str "X")]])).map
      (List.map (fun r => r.product_id)) = .ok ["123456-I2024"] ∧
    stripVariantSuffix "123456-I2024" = "123456" ∧
    "123456-I2024" ≠ "123456" := by
  exact ⟨rfl, rfl, by decide⟩

/-- C5 amended: the part_000 variant strips one trailing -I-digits suffix
from the id (chain id, productId, reference), while the main.js id chain
performs no stripping at all. -/
theorem variant_suffix_amended (t d : String) (hd : d.data ≠ [])
    (hdig : ∀ c ∈ d.data, c.isDigit = true) (ht : 4 ≤ t.length) :
    (Part0.normalizeProducts (.arr [.obj [("id", .str (t ++ "-I" ++ d)), ("name", .str "X")]])).map
      (fun r => r.product_id) = [t] ∧
    Main.extractId (.obj [("id", .str (t ++ "-I" ++ d))]) = t ++ "-I" ++ d := by
  have hstrip := stripVariantSuffix_append t d hd hdig
  have hbig : jTruthy (JVal.str (t ++ "-I" ++ d)) = true := by
    simp only [jTruthy, decide_eq_true_eq]
    intro he
    have hdat : (t ++ "-I" ++ d).data = [] := by rw [he]
    rw [String.data_append, String.data_append] at hdat
    simp at hdat
  have htne : (t == "") = false := by
    rw [beq_eq_false_iff_ne]
    intro he
    rw [he] at ht
    simp at ht
  have hlt : decide (t.length < 4) = false := by
    simp [Nat.not_lt.mpr ht]
  have hne : ¬ (t ++ "-I" ++ d) = "" := by
    intro he
    have hdat : (t ++ "-I" ++ d).data = [] := by rw [he]
    rw [String.data_append, String.data_append] at hdat
    simp at hdat
  have htne' : ¬ t = "" := by
    intro he
    rw [he] at ht
    simp at ht
  have hlt' : ¬ t.length < 4 := Nat.not_lt.mpr ht
  constructor
  · simp [Part0.normalizeProducts, Part0.normalizeOne, Part0.normalizeOneE, getF, List.lookup,
      jor, hbig, hne, htne', hlt', jToString, jToStringElem, hstrip, htne, hlt, jTruthy, optF,
      getIdx, normalizeImageUrl, isObjType, List.filterMap_cons, List.filterMap_nil]
  · simp [Main.extractId, getF, List.lookup, jor, hbig, hne, jToString, jToStringElem, optF,
      optIdx, jTruthy]

/-- C5 amended witness: the id 1234-I2024 is stripped to 1234 by part_000
and passed through unstripped by the main.js id extraction. -/
theorem variant_suffix_amended_witness :
    (Part0.normalizeProducts (.arr [.obj [("id", .str ("1234" ++ "-I" ++ "2024")), ("name", .str "X")]])).map
      (fun r => r.product_id) = ["1234"] ∧
    Main.extractId (.obj [("id", .str ("1234" ++ "-I" ++ "2024"))]) = "1234" ++ "-I" ++ "2024" :=
  variant_suffix_amended "1234" "2024" (by decide) (by decide) (by decide)

/-- C7 counterexample: a scheme-less image URL with no leading slash is
not absolutized — the normalized value is still relative (its query string
is stripped, though). -/
theorem url_absolutization_counterexample :
    normalizeImageUrl (.str "img.jpg?x=1") = .ok (some "img.jpg") ∧
    isAbsoluteUrl "img.jpg?x=1" = false ∧ isAbsoluteUrl "img.jpg" = false ∧
    (Main.normalizeProducts (.arr [.obj [("id", .str "12345"), ("name", .str "X"),
        ("image", .str "img.jpg?x=1")]])).map (List.map (fun r => r.image_url)) =
      .ok [some "img.jpg"] :=
  ⟨rfl, rfl, rfl, rfl⟩

/-- C7 amended: protocol-relative image URLs are prefixed with the https
scheme and site-root-relative ones are absolutized against the
static-asset host, both yielding absolute URLs; every normalized image URL
is free of query strings; and a relative product URL is prefixed with the
canonical host, yielding an absolute URL. -/
theorem url_absolutization_amended :
    (∀ (s : String) (rest : List Char), s.data = '/' :: '/' :: rest →
        normalizeImageUrl (.str s) = .ok (some (stripQuery ("https:" ++ s))) ∧
        isAbsoluteUrl (stripQuery ("https:" ++ s)) = true) ∧
    (∀ (s : String) (rest : List Char), s.data = '/' :: rest → jsStartsWith s "//" = false →
        normalizeImageUrl (.str s) = .ok (some (stripQuery ("https://static.zara.net" ++ s))) ∧
        isAbsoluteUrl (stripQuery ("https://static.zara.net" ++ s)) = true) ∧
    (∀ (v : JVal) (r : String), normalizeImageUrl v = .ok (some r) → hasQuery r = false) ∧
    (∀ s : String, s ≠ "" → jsStartsWith s "http" = false →
        Main.finalizeProductUrl (.str s) = .ok (.str ("https://www.zara.com" ++ s)) ∧
        isAbsoluteUrl ("https://www.zara.com" ++ s) = true) := by
  refine ⟨?_, ?_, ?_, ?_⟩
  · intro s rest h
    obtain ⟨l⟩ := s
    have h' : l = '/' :: '/' :: rest := h
    subst h'
    exact ⟨rfl, rfl⟩
  · intro s rest h h2
    obtain ⟨l⟩ := s
    have h' : l = '/' :: rest := h
    subst h'
    have h2' : listIsPre ['/'] rest = false := h2
    refine ⟨?_, rfl⟩
    simp [normalizeImageUrl, jTruthy, jsStartsWith, listIsPre, h2', String.ext_iff]
  · intro v r hv
    unfold normalizeImageUrl at hv
    split at hv
    · simp at hv
    · split at hv
      · injection hv with h1
        injection h1 with h2
        rw [← h2]
        exact hasQuery_stripQuery _
      · cases hv
  · intro s hs h2
    obtain ⟨l⟩ := s
    have htr : jTruthy (JVal.str (String.mk l)) = true := by
      simp [jTruthy, hs]
    constructor
    · unfold Main.finalizeProductUrl
      simp [htr, h2]
    · rfl

/-- C7 amended witness: the URL facts at concrete protocol-relative,
site-root-relative and relative product URLs. -/
theorem url_absolutization_amended_witness :
    (normalizeImageUrl (.str "//static/x.jpg?x=1") =
        .ok (some (stripQuery ("https:" ++ "//static/x.jpg?x=1"))) ∧
      isAbsoluteUrl (stripQuery ("https:" ++ "//static/x.jpg?x=1")) = true) ∧
    (normalizeImageUrl (.str "/photos/p.jpg?w=1") =
        .ok (some (stripQuery ("https://static.zara.net" ++ "/photos/p.jpg?w=1"))) ∧
      isAbsoluteUrl (stripQuery ("https://static.zara.net" ++ "/photos/p.jpg?w=1")) = true) ∧
    hasQuery "https://static/x.jpg" = false ∧
    (Main.finalizeProductUrl (.str "/product/12345.html") =
        .ok (.str ("https://www.zara.com" ++ "/product/12345.html")) ∧
      isAbsoluteUrl ("https://www.zara.com" ++ "/product/12345.html") = true) :=
  ⟨url_absolutization_amended.1 "//static/x.jpg?x=1" ("static/x.jpg?x=1".data) rfl,
    url_absolutization_amended.2.1 "/photos/p.jpg?w=1" ("photos/p.jpg?w=1".data) rfl rfl,
    url_absolutization_amended.2.2.1 (.str "//static/x.jpg?x=1") "https://static/x.jpg" rfl,
    url_absolutization_amended.2.2.2 "/product/12345.html" (by decide) rfl⟩

end ZaraScraper
